import Mathlib

/-! Authorization-code flow handlers: embedding and verification.

Shallow embedding of `internal/handler/auth/callback.go` and
`internal/handler/auth/auth.go`.

* A Go `error` is its message: `Option String` (`none` is `nil`), and a
  `(T, error)` result is `Except String T`.
* `gin.Context` is split into the read-only request (`Context`: query
  parameters and cookies) and the calls the handler makes, which are appended
  in program order to the log of a `World`.  Calls on the collaborators
  (stores, OAuth2 client, verifier) are logged as well, so that "X is never
  invoked" is a statement about the log.
* The stores and the provider client are interfaces whose implementations are
  outside the handler package; they are parameters of the handlers.
* Go strings are embedded as Lean strings; `strings.Index` and slicing are
  computed on characters, which agrees with Go's byte indices on ASCII text.
-/

namespace AuthFlow

/-! ## Data model -/

/-- Go struct `store.UserInfoData`, the fields assigned by `Callback`. -/
structure UserInfoData where
  Nric : String
  FullName : String
deriving DecidableEq, Repr

/-- Go struct `store.SessionData`, the fields assigned by `Callback`. -/
structure SessionData where
  AccessToken : String
  RefreshToken : String
  UserInfoData : UserInfoData
deriving DecidableEq, Repr

/-- Go struct `userInfoClaims` of callback.go. -/
structure userInfoClaims where
  Nric : String
  Nama : String
  Name : String
  Sub : String
deriving DecidableEq, Repr

/-- Go struct `callbackData` of callback.go. -/
structure callbackData where
  stateID : String
  authzCode : String
deriving DecidableEq, Repr

/-- The `oauth2.Token` returned by the exchange.  `extra` holds the string-valued
extra fields of the token response; a field that is absent or not a string is
absent here, since the type assertion `.(string)` fails in both cases. -/
structure Token where
  AccessToken : String
  RefreshToken : String
  extra : List (String × String)
deriving DecidableEq, Repr

/-- Method `Extra(key).(string)` of `oauth2.Token`: the value and the `ok` flag. -/
def Token.Extra (t : Token) (key : String) : Option String :=
  t.extra.lookup key

/-- An `oidc.IDToken` as the handler uses it: the outcome of decoding its
payload into a `userInfoClaims` (method `Claims`). -/
structure IDToken where
  Claims : Except String userInfoClaims

/-- The `oidc.IDTokenVerifier`: method `Verify` on a raw token. -/
structure IDTokenVerifier where
  Verify : String → Except String IDToken

/-- The `oauth2.Config` held by the client, with the methods the handlers call. -/
structure OauthConfig where
  ClientID : String
  AuthCodeURL : String → String
  Exchange : String → List (String × String) → Except String Token

/-- Go struct `auth.Client`: OAuth2 configuration, ID-token verifier and the
provider's authorization endpoint URL (`Provider.Endpoint().AuthURL`). -/
structure Client where
  Oauth : OauthConfig
  OIDC : IDTokenVerifier
  AuthURL : String

/-- Interface `store.AuthStore` over a store state `σ`: every method returns
its Go result together with the store state it leaves behind. -/
structure AuthStore (σ : Type) where
  SetState : σ → String → Option String × σ
  GetState : σ → String → Except String String × σ
  DeleteState : σ → String → Option String × σ

/-- Interface `store.SessionStore` over a store state `τ`. -/
structure SessionStore (τ : Type) where
  SaveSession : τ → String → SessionData → Option String × τ

/-- Go struct `AuthHandler` (the configuration field is never read by the
handlers embedded here). -/
structure AuthHandler (σ τ : Type) where
  serverAddr : String
  authClient : Client
  authStore : AuthStore σ
  sessionStore : SessionStore τ

/-- The request side of `gin.Context`: decoded query parameters and cookies. -/
structure Context where
  query : List (String × String)
  cookies : List (String × String)
deriving DecidableEq, Repr

/-- Method `c.Query(key)`: the first value of the key, or the empty string. -/
def Context.Query (c : Context) (key : String) : String :=
  (c.query.lookup key).getD ""

/-- Method `c.Cookie(name)`: the cookie value, or `http.ErrNoCookie`. -/
def Context.Cookie (c : Context) (name : String) : Except String String :=
  match c.cookies.lookup name with
  | some v => .ok v
  | none => .error "http: named cookie not present"

/-- Calls made by a handler, in program order. -/
inductive Event where
  /-- Response `c.JSON(status, gin.H with the single key "error")`. -/
  | json (status : Nat) (error : String)
  /-- Response `c.SetCookie(name, value, maxAge, path, domain, secure, httpOnly)`. -/
  | setCookie (name value : String) (maxAge : Nat) (path domain : String)
      (secure httpOnly : Bool)
  /-- Response `c.Redirect(status, location)`. -/
  | redirect (status : Nat) (location : String)
  /-- Call `c.Abort()`. -/
  | abort
  /-- Call `authStore.SetState(ctx, id)`. -/
  | setState (id : String)
  /-- Call `authStore.GetState(ctx, id)`. -/
  | getState (id : String)
  /-- Call `authStore.DeleteState(ctx, id)`. -/
  | deleteState (id : String)
  /-- Call `Oauth.Exchange(ctx, code, opts...)`. -/
  | exchange (code : String) (opts : List (String × String))
  /-- Call `verifier.Verify(ctx, rawIDToken)`. -/
  | verifyToken (rawIDToken : String)
  /-- Call `sessionStore.SaveSession(ctx, key, data)`. -/
  | saveSession (key : String) (data : SessionData)
  /-- Call `Oauth.AuthCodeURL(state)`. -/
  | authCodeURL (state : String)
deriving DecidableEq, Repr

/-- State Store, Session Store and the log of calls made so far. -/
structure World (σ τ : Type) where
  auth : σ
  sess : τ
  log : List Event

/-- Append one call to the log. -/
def World.emit {σ τ : Type} (w : World σ τ) (e : Event) : World σ τ :=
  { w with log := w.log ++ [e] }

/-- Constant `http.StatusInternalServerError`. -/
def StatusInternalServerError : Nat := 500

/-- Constant `http.StatusFound`. -/
def StatusFound : Nat := 302

/-- Constant `http.StatusTemporaryRedirect`. -/
def StatusTemporaryRedirect : Nat := 307

/-! ## callback.go -/

/-- Function `newCallbackData` of callback.go. -/
def newCallbackData (c : Context) : Except String callbackData :=
  let stateID := c.Query "state"
  if stateID = "" then
    .error "stateID is required"
  else
    let authorizationCode := c.Query "code"
    if authorizationCode = "" then
      .error "authorizationCode is required"
    else
      .ok { stateID := stateID, authzCode := authorizationCode }

/-- Method `callbackData.verify` of callback.go. -/
def callbackData.verify {σ τ : Type} (c : callbackData) (authStore : AuthStore σ)
    (w : World σ τ) : Option String × World σ τ :=
  let w := w.emit (.getState c.stateID)
  let r := authStore.GetState w.auth c.stateID
  let w := { w with auth := r.2 }
  match r.1 with
  | .error err => (some err, w)
  | .ok stateIDData =>
    if stateIDData ≠ c.stateID then
      (some "invalid stateID", w)
    else
      let w := w.emit (.deleteState stateIDData)
      let d := authStore.DeleteState w.auth stateIDData
      let w := { w with auth := d.2 }
      match d.1 with
      | some err => (some err, w)
      | none => (none, w)

/-- Go struct `oidcToken` of callback.go. -/
structure oidcToken where
  rawIDToken : String
  verifier : IDTokenVerifier

/-- Function `newOIDCToken` of callback.go. -/
def newOIDCToken (oauthToken : Token) (verifier : IDTokenVerifier) :
    Except String oidcToken :=
  match oauthToken.Extra "id_token" with
  | none => .error "no id_token in response"
  | some rawIDToken => .ok { rawIDToken := rawIDToken, verifier := verifier }

/-- Method `oidcToken.getClaims` of callback.go. -/
def oidcToken.getClaims {σ τ : Type} (o : oidcToken) (w : World σ τ) :
    Except String userInfoClaims × World σ τ :=
  let w := w.emit (.verifyToken o.rawIDToken)
  match o.verifier.Verify o.rawIDToken with
  | .error _ => (.error "failed to verify ID token", w)
  | .ok idToken =>
    let w := w.emit (.setCookie "idToken" o.rawIDToken 3600 "/" "" true true)
    match idToken.Claims with
    | .error _ => (.error "failed to extract claims", w)
    | .ok userInfoClaims => (.ok userInfoClaims, w)

/-- Method `AuthHandler.Callback` of callback.go.  After a failed `verify` the
handler writes the error response and, having no `return` there, goes on. -/
def AuthHandler.Callback {σ τ : Type} (a : AuthHandler σ τ) (c : Context)
    (w : World σ τ) : World σ τ :=
  match newCallbackData c with
  | .error err => w.emit (.json StatusInternalServerError err)
  | .ok callbackData =>
    let v := callbackData.verify a.authStore w
    let w := match v.1 with
      | some err => v.2.emit (.json StatusInternalServerError err)
      | none => v.2
    let opts := [("grant_type", "authorization_code")]
    let w := w.emit (.exchange callbackData.authzCode opts)
    match a.authClient.Oauth.Exchange callbackData.authzCode opts with
    | .error err => w.emit (.json StatusInternalServerError err)
    | .ok oauth2Token =>
      match newOIDCToken oauth2Token a.authClient.OIDC with
      | .error err => w.emit (.json StatusInternalServerError err)
      | .ok oidcToken =>
        let g := oidcToken.getClaims w
        let w := g.2
        match g.1 with
        | .error err => w.emit (.json StatusInternalServerError err)
        | .ok userInfoClaims =>
          let sessionData : SessionData :=
            { AccessToken := oauth2Token.AccessToken
              RefreshToken := oauth2Token.RefreshToken
              UserInfoData :=
                { Nric := userInfoClaims.Nric, FullName := userInfoClaims.Name } }
          let w := w.emit (.saveSession userInfoClaims.Sub sessionData)
          let s := a.sessionStore.SaveSession w.sess userInfoClaims.Sub sessionData
          let w := { w with sess := s.2 }
          match s.1 with
          | some err => w.emit (.json StatusInternalServerError err)
          | none =>
            let w := w.emit (.setCookie "session_id" userInfoClaims.Sub 3600 "/" "" true true)
            let w := w.emit (.setCookie "user_nric" userInfoClaims.Nric 3600 "/" "" true true)
            let w := w.emit (.setCookie "user_name" userInfoClaims.Name 3600 "/" "" true true)
            w.emit (.redirect StatusTemporaryRedirect "/success-login")

/-! ## Go library functions used by auth.go -/

/-- Position of the first occurrence of `sub` in `s`, if there is one. -/
def indexOf? (sub : List Char) : List Char → Option Nat
  | [] => if sub.isPrefixOf [] then some 0 else none
  | c :: cs =>
    if sub.isPrefixOf (c :: cs) then some 0
    else (indexOf? sub cs).map (· + 1)

/-- Go `strings.Index(s, substr)`: index of the first occurrence, or `-1`. -/
def stringsIndex (s substr : String) : Int :=
  match indexOf? substr.data s.data with
  | some i => (i : Int)
  | none => -1

/-- Go slice expression `s[:high]` on a string: in range when
`0 <= high <= len(s)`, otherwise a run-time panic (`none`). -/
def sliceTo (s : String) (high : Int) : Option String :=
  if 0 ≤ high ∧ high ≤ (s.data.length : Int) then
    some ⟨s.data.take high.toNat⟩
  else
    none

/-- UTF-8 encoding of a character, as byte values. -/
def utf8Bytes (c : Char) : List Nat :=
  let v := c.toNat
  if v ≤ 0x7f then [v]
  else if v ≤ 0x7ff then [0xc0 + v / 64, 0x80 + v % 64]
  else if v ≤ 0xffff then [0xe0 + v / 4096, 0x80 + (v / 64) % 64, 0x80 + v % 64]
  else [0xf0 + v / 262144, 0x80 + (v / 4096) % 64, 0x80 + (v / 64) % 64, 0x80 + v % 64]

/-- Digit `n` of Go's `upperhex` table `"0123456789ABCDEF"`. -/
def upperhex (n : Nat) : Char :=
  if n < 10 then Char.ofNat (48 + n) else Char.ofNat (55 + n)

/-- Characters that `url.QueryEscape` leaves as they are: ASCII letters,
digits and `-`, `_`, `.`, `~`. -/
def unreserved (c : Char) : Bool :=
  (decide ('a' ≤ c) && decide (c ≤ 'z')) || (decide ('A' ≤ c) && decide (c ≤ 'Z')) ||
  (decide ('0' ≤ c) && decide (c ≤ '9')) || c = '-' || c = '_' || c = '.' || c = '~'

/-- Escaping of one character by `url.QueryEscape`: unreserved characters are
kept, a space becomes `+`, every other byte becomes `%XX`. -/
def escapeChar (c : Char) : List Char :=
  if unreserved c then [c]
  else if c = ' ' then ['+']
  else (utf8Bytes c).flatMap fun b => ['%', upperhex (b / 16), upperhex (b % 16)]

/-- Go `url.QueryEscape`. -/
def QueryEscape (s : String) : String :=
  ⟨s.data.flatMap escapeChar⟩

/-- Go `url.Values`: keys with their value lists. -/
structure Values where
  entries : List (String × List String)
deriving DecidableEq, Repr

/-- Method `url.Values.Set`: the key now holds exactly this value. -/
def Values.Set (v : Values) (key value : String) : Values :=
  if v.entries.any (fun e => e.1 = key) then
    ⟨v.entries.map fun e => if e.1 = key then (key, [value]) else e⟩
  else
    ⟨v.entries ++ [(key, [value])]⟩

/-- Lexicographic order on character lists. -/
def ltChars : List Char → List Char → Bool
  | [], [] => false
  | [], _ :: _ => true
  | _ :: _, [] => false
  | a :: as, b :: bs =>
    if a.toNat < b.toNat then true
    else if b.toNat < a.toNat then false
    else ltChars as bs

/-- Go's `<` on strings, by which `Encode` sorts the keys. -/
def stringLess (a b : String) : Bool :=
  ltChars a.data b.data

/-- Insertion of an entry into a list sorted by key. -/
def insertByKey (e : String × List String) :
    List (String × List String) → List (String × List String)
  | [] => [e]
  | x :: xs => if stringLess e.1 x.1 then e :: x :: xs else x :: insertByKey e xs

/-- Entries sorted by key. -/
def sortByKey : List (String × List String) → List (String × List String)
  | [] => []
  | x :: xs => insertByKey x (sortByKey xs)

/-- The `key=value` pairs of `url.Values.Encode`, in output order. -/
def encodePairs (v : Values) : List String :=
  (sortByKey v.entries).flatMap fun e =>
    e.2.map fun x => QueryEscape e.1 ++ "=" ++ QueryEscape x

/-- Method `url.Values.Encode`: "URL encoded" form sorted by key. -/
def Values.Encode (v : Values) : String :=
  "&".intercalate (encodePairs v)

/-! ## auth.go -/

/-- Method `AuthHandler.RedirectToKeycloak` of auth.go.  `gen` is the pair
returned by `utils.GenerateRandomBase64Str()`.  Neither error branch returns. -/
def AuthHandler.RedirectToKeycloak {σ τ : Type} (a : AuthHandler σ τ)
    (gen : String × Option String) (w : World σ τ) : World σ τ :=
  let stateID := gen.1
  let w := match gen.2 with
    | some err => w.emit (.json StatusInternalServerError err)
    | none => w
  let w := w.emit (.setState stateID)
  let r := a.authStore.SetState w.auth stateID
  let w := { w with auth := r.2 }
  let w := match r.1 with
    | some err => w.emit (.json StatusInternalServerError err)
    | none => w
  let w := w.emit (.authCodeURL stateID)
  w.emit (.redirect StatusFound (a.authClient.Oauth.AuthCodeURL stateID))

/-- The base of the logout URL built by `LogoutHandler`:
`fmt.Sprintf("%s/protocol/openid-connect/logout", AuthURL[:strings.Index(AuthURL, "/protocol")])`,
or `none` when the slice expression panics. -/
def logoutURL (authURL : String) : Option String :=
  (sliceTo authURL (stringsIndex authURL "/protocol")).map
    fun base => base ++ "/protocol/openid-connect/logout"

/-- Method `AuthHandler.LogoutHandler` of auth.go.  The result is `.error` when
the handler panics (slice bounds out of range) instead of returning. -/
def AuthHandler.LogoutHandler {σ τ : Type} (a : AuthHandler σ τ) (c : Context)
    (w : World σ τ) : Except String (World σ τ) :=
  let home := (w.emit (.redirect StatusFound "/")).emit .abort
  match c.Cookie "idToken" with
  | .error _ => .ok home
  | .ok idToken =>
    if idToken = "" then .ok home
    else
      match logoutURL a.authClient.AuthURL with
      | none => .error "runtime error: slice bounds out of range"
      | some logoutURL =>
        let params : Values := ⟨[]⟩
        let params := params.Set "client_id" a.authClient.Oauth.ClientID
        let params := params.Set "id_token_hint" idToken
        let params := params.Set "post_logout_redirect_uri" "http://localhost:8081"
        let finalURL := logoutURL ++ "?" ++ params.Encode
        .ok (w.emit (.redirect StatusFound finalURL))

/-! ## Stores used in examples -/

/-- Modelled from the spec: the State Store implementation (package `store` is
outside the handler package) as a key-value content; `SetState id` records the
token under its own id, `GetState` fails on an absent key, `DeleteState`
removes the key. -/
def memAuthStore : AuthStore (List (String × String)) where
  SetState s id := (none, (id, id) :: s.filter fun e => e.1 ≠ id)
  GetState s id :=
    match s.lookup id with
    | some v => (.ok v, s)
    | none => (.error "state not found", s)
  DeleteState s id := (none, s.filter fun e => e.1 ≠ id)

/-- Modelled from the spec: a State Store whose writes fail (store I/O error). -/
def failingAuthStore : AuthStore (List (String × String)) where
  SetState s _ := (some "store unavailable", s)
  GetState s _ := (.error "store unavailable", s)
  DeleteState s _ := (some "store unavailable", s)

/-- Modelled from the spec: the Session Store implementation as a key-value
content; `SaveSession` overwrites the record of the subject. -/
def memSessionStore : SessionStore (List (String × SessionData)) where
  SaveSession s key data := (none, (key, data) :: s.filter fun e => e.1 ≠ key)

/-- Membership of a key in a key-value content. -/
def hasKey {β : Type} (s : List (String × β)) (key : String) : Bool :=
  s.any fun e => e.1 = key

/-- A provider configuration used in examples: the code `validcode` is
exchanged for a token carrying the raw ID token `signed.jwt`, the only token
the verifier accepts. -/
def demoClient : Client where
  Oauth :=
    { ClientID := "cid"
      AuthCodeURL := fun st => "https://kc/realms/r/protocol/openid-connect/auth?state=" ++ st
      Exchange := fun code _ =>
        if code = "validcode" then
          .ok { AccessToken := "at", RefreshToken := "rt", extra := [("id_token", "signed.jwt")] }
        else .error "invalid_grant" }
  OIDC :=
    { Verify := fun raw =>
        if raw = "signed.jwt" then
          .ok { Claims := .ok { Nric := "S1234567A", Nama := "", Name := "Jane", Sub := "u1" } }
        else .error "bad signature" }
  AuthURL := "https://kc/realms/r/protocol/openid-connect/auth"

/-- A handler over the in-memory stores and the example provider. -/
def demoHandler : AuthHandler (List (String × String)) (List (String × SessionData)) where
  serverAddr := "localhost:8081"
  authClient := demoClient
  authStore := memAuthStore
  sessionStore := memSessionStore

/-- The example handler with a State Store whose operations fail. -/
def demoHandlerFailingStore :
    AuthHandler (List (String × String)) (List (String × SessionData)) where
  serverAddr := "localhost:8081"
  authClient := demoClient
  authStore := failingAuthStore
  sessionStore := memSessionStore

/-- The example handler with a provider whose token response carries the raw
ID token `forged.jwt`, which the verifier rejects. -/
def demoHandlerForged :
    AuthHandler (List (String × String)) (List (String × SessionData)) where
  serverAddr := "localhost:8081"
  authClient :=
    { demoClient with
      Oauth :=
        { ClientID := "cid"
          AuthCodeURL := demoClient.Oauth.AuthCodeURL
          Exchange := fun _ _ =>
            .ok { AccessToken := "at", RefreshToken := "rt",
                  extra := [("id_token", "forged.jwt")] } } }
  authStore := memAuthStore
  sessionStore := memSessionStore

/-- The calls of a successful callback run of the example handler. -/
def demoSuccessEvents : List Event :=
  [ .getState "abc123", .deleteState "abc123",
    .exchange "validcode" [("grant_type", "authorization_code")],
    .verifyToken "signed.jwt",
    .setCookie "idToken" "signed.jwt" 3600 "/" "" true true,
    .saveSession "u1" ⟨"at", "rt", ⟨"S1234567A", "Jane"⟩⟩,
    .setCookie "session_id" "u1" 3600 "/" "" true true,
    .setCookie "user_nric" "S1234567A" 3600 "/" "" true true,
    .setCookie "user_name" "Jane" 3600 "/" "" true true,
    .redirect 307 "/success-login" ]

/-- The event is a call of `Oauth.Exchange`. -/
def Event.isExchange : Event → Bool
  | .exchange _ _ => true
  | _ => false

/-- The event is a call of `SaveSession`. -/
def Event.isSaveSession : Event → Bool
  | .saveSession _ _ => true
  | _ => false

/-- The event is a call of `c.SetCookie`. -/
def Event.isSetCookie : Event → Bool
  | .setCookie _ _ _ _ _ _ _ => true
  | _ => false

/-- The event is a call of `c.Redirect`. -/
def Event.isRedirect : Event → Bool
  | .redirect _ _ => true
  | _ => false

/-- The options `Callback` passes to the exchange. -/
def exchangeOpts : List (String × String) :=
  [("grant_type", "authorization_code")]

end AuthFlow

namespace AuthFlow

/-! ## Facts about the library functions -/

theorem indexOf?_some (sub : List Char) :
    ∀ (s : List Char) (i : Nat), indexOf? sub s = some i →
      ∃ p r, s = p ++ sub ++ r ∧ p.length = i ∧
        ∀ p' r', s = p' ++ sub ++ r' → i ≤ p'.length := by
  intro s
  induction s with
  | nil =>
    intro i h
    simp only [indexOf?] at h
    split at h
    · rename_i hp
      have hsub : sub = [] := by simpa using hp
      cases h
      exact ⟨[], [], by simp [hsub], rfl, fun _ _ _ => Nat.zero_le _⟩
    · cases h
  | cons c cs ih =>
    intro i h
    simp only [indexOf?] at h
    split at h
    · rename_i hp
      cases h
      obtain ⟨r, hr⟩ := List.isPrefixOf_iff_prefix.mp hp
      exact ⟨[], r, by simp [hr], rfl, fun _ _ _ => Nat.zero_le _⟩
    · rename_i hp
      cases hj : indexOf? sub cs with
      | none => simp [hj] at h
      | some j =>
        simp [hj] at h
        obtain ⟨p, r, hs, hlen, hmin⟩ := ih j hj
        refine ⟨c :: p, r, by simp [hs], by simp [hlen, h], ?_⟩
        intro p' r' hs'
        cases p' with
        | nil =>
          exfalso
          apply hp
          exact List.isPrefixOf_iff_prefix.mpr ⟨r', by simpa using hs'.symm⟩
        | cons d p'' =>
          simp only [List.cons_append, List.cons.injEq] at hs'
          have := hmin p'' r' (by simpa using hs'.2)
          simp only [List.length_cons]
          omega

theorem indexOf?_none (sub : List Char) :
    ∀ (s : List Char), indexOf? sub s = none → ∀ p r, s ≠ p ++ sub ++ r := by
  intro s
  induction s with
  | nil =>
    intro h p r hs
    simp only [indexOf?] at h
    split at h
    · cases h
    · rename_i hp
      apply hp
      have h1 : p ++ sub ++ r = [] := hs.symm
      have hsub : sub = [] := by
        simp only [List.append_eq_nil] at h1
        exact h1.1.2
      simp [hsub]
  | cons c cs ih =>
    intro h p r hs
    simp only [indexOf?] at h
    split at h
    · cases h
    · rename_i hp
      cases hj : indexOf? sub cs with
      | some j => simp [hj] at h
      | none =>
        cases p with
        | nil =>
          apply hp
          exact List.isPrefixOf_iff_prefix.mpr ⟨r, by simpa using hs.symm⟩
        | cons d p' =>
          simp only [List.cons_append, List.cons.injEq] at hs
          exact ih hj p' r (by simpa using hs.2)

theorem infix_iff_split (sub s : List Char) :
    sub <:+: s ↔ ∃ p r, s = p ++ sub ++ r := by
  constructor
  · rintro ⟨p, r, h⟩
    exact ⟨p, r, h.symm⟩
  · rintro ⟨p, r, h⟩
    exact ⟨p, r, h.symm⟩


/-! ## The callback handler -/

theorem newCallbackData_error_of_missing (c : Context)
    (h : c.Query "state" = "" ∨ c.Query "code" = "") :
    ∃ err, newCallbackData c = .error err := by
  unfold newCallbackData
  by_cases hs : c.Query "state" = ""
  · exact ⟨"stateID is required", by simp [hs]⟩
  · have hc : c.Query "code" = "" := h.resolve_left hs
    exact ⟨"authorizationCode is required", by simp [hs, hc]⟩

/-- C5: when the `state` or the `code` query parameter is missing or empty,
`newCallbackData` returns an error and `Callback` only writes the error
response (status 500): both stores are untouched and the single call it makes
is `c.JSON`, so no store or provider call happens. -/
theorem callback_missing_parameter {σ τ : Type} (a : AuthHandler σ τ) (c : Context)
    (w : World σ τ) (h : c.Query "state" = "" ∨ c.Query "code" = "") :
    ∃ err, newCallbackData c = .error err ∧
      (a.Callback c w).auth = w.auth ∧
      (a.Callback c w).sess = w.sess ∧
      (a.Callback c w).log = w.log ++ [Event.json 500 err] := by
  obtain ⟨err, he⟩ := newCallbackData_error_of_missing c h
  refine ⟨err, he, ?_, ?_, ?_⟩ <;>
    simp [AuthHandler.Callback, he, World.emit, StatusInternalServerError]

theorem callback_missing_parameter_witness :
    (Context.Query ⟨[("state", "abc123")], []⟩ "state" = "" ∨
      Context.Query ⟨[("state", "abc123")], []⟩ "code" = "") ∧
    ∃ err, newCallbackData ⟨[("state", "abc123")], []⟩ = .error err ∧
      (demoHandler.Callback ⟨[("state", "abc123")], []⟩
        ⟨[("abc123", "abc123")], [], []⟩).auth = [("abc123", "abc123")] ∧
      (demoHandler.Callback ⟨[("state", "abc123")], []⟩
        ⟨[("abc123", "abc123")], [], []⟩).sess = [] ∧
      (demoHandler.Callback ⟨[("state", "abc123")], []⟩
        ⟨[("abc123", "abc123")], [], []⟩).log = [] ++ [Event.json 500 err] :=
  ⟨by decide,
    callback_missing_parameter demoHandler ⟨[("state", "abc123")], []⟩
      ⟨[("abc123", "abc123")], [], []⟩ (by decide)⟩

/-- C1: at a callback whose `state` was never issued (empty State Store),
`verify` fails, the handler writes the error response and then still calls
`Oauth.Exchange` with the presented code. -/
theorem callback_unissued_state_reaches_exchange :
    (callbackData.verify ⟨"forged", "validcode"⟩ demoHandler.authStore
        (⟨[], [], []⟩ : World _ (List (String × SessionData)))).1 = some "state not found" ∧
    (demoHandler.Callback ⟨[("state", "forged"), ("code", "validcode")], []⟩
        ⟨[], [], []⟩).log.take 3 =
      [Event.getState "forged", Event.json 500 "state not found",
        Event.exchange "validcode" [("grant_type", "authorization_code")]] := by
  decide

/-- C2: at a callback whose state verification fails (empty State Store) but
whose code the provider accepts, `SaveSession` is invoked and the Session
Store gains a record. -/
theorem callback_failed_state_saves_session :
    (callbackData.verify ⟨"forged", "validcode"⟩ demoHandler.authStore
        (⟨[], [], []⟩ : World _ (List (String × SessionData)))).1 = some "state not found" ∧
    Event.saveSession "u1" ⟨"at", "rt", ⟨"S1234567A", "Jane"⟩⟩ ∈
      (demoHandler.Callback ⟨[("state", "forged"), ("code", "validcode")], []⟩
        ⟨[], [], []⟩).log ∧
    (demoHandler.Callback ⟨[("state", "forged"), ("code", "validcode")], []⟩
        ⟨[], [], []⟩).sess = [("u1", ⟨"at", "rt", ⟨"S1234567A", "Jane"⟩⟩)] := by
  decide


theorem newCallbackData_ok (c : Context) (cd : callbackData)
    (h : newCallbackData c = .ok cd) :
    cd.stateID = c.Query "state" ∧ cd.authzCode = c.Query "code" ∧
      c.Query "state" ≠ "" ∧ c.Query "code" ≠ "" := by
  unfold newCallbackData at h
  by_cases hs : c.Query "state" = ""
  · simp [hs] at h
  · by_cases hc : c.Query "code" = ""
    · simp [hs, hc] at h
    · simp only [hs, hc, if_false, Except.ok.injEq] at h
      subst h
      exact ⟨rfl, rfl, hs, hc⟩

theorem verify_spec {σ τ : Type} (cd : callbackData) (st : AuthStore σ) (w : World σ τ) :
    (cd.verify st w).2.sess = w.sess ∧
    ∃ evs, (cd.verify st w).2.log = w.log ++ evs ∧
      ∀ e ∈ evs, e = Event.getState cd.stateID ∨ e = Event.deleteState cd.stateID := by
  unfold callbackData.verify
  cases hg : (st.GetState (w.emit (Event.getState cd.stateID)).auth cd.stateID).1 with
  | error err =>
    simp only [hg]
    exact ⟨rfl, [Event.getState cd.stateID], rfl, by simp⟩
  | ok v =>
    simp only [hg]
    by_cases hne : v ≠ cd.stateID
    · rw [if_pos hne]
      exact ⟨rfl, [Event.getState cd.stateID], rfl, by simp⟩
    · rw [if_neg hne]
      have hv : v = cd.stateID := not_not.mp hne
      subst hv
      split
      · exact ⟨rfl, [Event.getState cd.stateID, Event.deleteState cd.stateID],
          by simp [World.emit], by simp⟩
      · exact ⟨rfl, [Event.getState cd.stateID, Event.deleteState cd.stateID],
          by simp [World.emit], by simp⟩

theorem getClaims_of_verify_error {σ τ : Type} (o : oidcToken) (w : World σ τ) (e : String)
    (h : o.verifier.Verify o.rawIDToken = .error e) :
    o.getClaims w = (.error "failed to verify ID token", w.emit (.verifyToken o.rawIDToken)) := by
  simp [oidcToken.getClaims, h]

theorem emit_keeps {σ τ : Type} (P : Event → Prop) (w w1 : World σ τ) (e : Event)
    (hP : P e)
    (h : w1.sess = w.sess ∧ ∃ evs, w1.log = w.log ++ evs ∧ ∀ x ∈ evs, P x) :
    (w1.emit e).sess = w.sess ∧
      ∃ evs, (w1.emit e).log = w.log ++ evs ∧ ∀ x ∈ evs, P x := by
  obtain ⟨hs, evs, hl, hp⟩ := h
  refine ⟨hs, evs ++ [e], by simp [World.emit, hl], ?_⟩
  intro x hx
  rcases List.mem_append.mp hx with h1 | h1
  · exact hp x h1
  · simp only [List.mem_singleton] at h1
    subst h1
    exact hP

/-- C6: when the verifier's `Verify` returns an error for a raw ID token,
`getClaims` returns the error "failed to verify ID token" with no claims and
its only call is `Verify` (no `idToken` cookie); and a `Callback` run whose
exchanged token carries that raw ID token leaves the Session Store unchanged,
never calls `SaveSession` and sets no cookie. -/
theorem unverified_token_rejected {σ τ : Type} (verifier : IDTokenVerifier) (raw : String)
    (hv : ∃ e, verifier.Verify raw = .error e) :
    (∀ w : World σ τ,
      oidcToken.getClaims ⟨raw, verifier⟩ w =
        (.error "failed to verify ID token", w.emit (.verifyToken raw))) ∧
    (∀ (a : AuthHandler σ τ) (c : Context) (w : World σ τ),
      a.authClient.OIDC = verifier →
      (∀ tok r, a.authClient.Oauth.Exchange (c.Query "code") exchangeOpts = .ok tok →
        tok.Extra "id_token" = some r → r = raw) →
      (a.Callback c w).sess = w.sess ∧
      ∃ evs, (a.Callback c w).log = w.log ++ evs ∧
        ∀ e ∈ evs, e.isSaveSession = false ∧ e.isSetCookie = false) := by
  obtain ⟨e, he⟩ := hv
  refine ⟨fun w => getClaims_of_verify_error ⟨raw, verifier⟩ w e he, ?_⟩
  intro a c w hver htok
  cases hn : newCallbackData c with
  | error err =>
    simp only [AuthHandler.Callback, hn]
    exact emit_keeps _ w w _ ⟨rfl, rfl⟩ ⟨rfl, [], by simp, by simp⟩
  | ok cd =>
    obtain ⟨hst, hcode, -, -⟩ := newCallbackData_ok c cd hn
    obtain ⟨hsess, evsv, hlog, hev⟩ := verify_spec cd a.authStore w
    have hevs : ∀ e ∈ evsv, e.isSaveSession = false ∧ e.isSetCookie = false := by
      intro e hmem
      rcases hev e hmem with h | h <;> subst h <;> exact ⟨rfl, rfl⟩
    simp only [AuthHandler.Callback, hn]
    generalize cd.verify a.authStore w = v at hsess hlog
    obtain ⟨verr, wv⟩ := v
    simp only at hsess hlog
    have hwv : wv.sess = w.sess ∧ ∃ evs, wv.log = w.log ++ evs ∧
        ∀ x ∈ evs, x.isSaveSession = false ∧ x.isSetCookie = false :=
      ⟨hsess, evsv, hlog, hevs⟩
    rw [← hcode, exchangeOpts] at htok
    cases verr <;> simp only [] <;>
    (cases hx : a.authClient.Oauth.Exchange cd.authzCode
        [("grant_type", "authorization_code")] with
      | error err =>
        simp only []
        repeat (first | exact hwv | refine emit_keeps _ w _ _ ⟨rfl, rfl⟩ ?_)
      | ok tok =>
        simp only [newOIDCToken]
        cases hex : tok.Extra "id_token" with
        | none =>
          simp only []
          repeat (first | exact hwv | refine emit_keeps _ w _ _ ⟨rfl, rfl⟩ ?_)
        | some r =>
          have hr : r = raw := htok tok r hx hex
          subst hr
          simp only [hver, getClaims_of_verify_error ⟨r, verifier⟩ _ e he]
          repeat (first | exact hwv | refine emit_keeps _ w _ _ ⟨rfl, rfl⟩ ?_))


theorem unverified_token_rejected_witness :
    (∃ e, demoClient.OIDC.Verify "forged.jwt" = .error e) ∧
    oidcToken.getClaims ⟨"forged.jwt", demoClient.OIDC⟩
        (⟨[("abc123", "abc123")], [], []⟩ : World (List (String × String))
          (List (String × SessionData))) =
      (.error "failed to verify ID token",
        ⟨[("abc123", "abc123")], [], [Event.verifyToken "forged.jwt"]⟩) ∧
    (demoHandlerForged.Callback ⟨[("state", "abc123"), ("code", "validcode")], []⟩
        ⟨[("abc123", "abc123")], [], []⟩).sess = [] ∧
    ∃ evs, (demoHandlerForged.Callback ⟨[("state", "abc123"), ("code", "validcode")], []⟩
        ⟨[("abc123", "abc123")], [], []⟩).log = [] ++ evs ∧
      ∀ e ∈ evs, e.isSaveSession = false ∧ e.isSetCookie = false :=
  ⟨⟨"bad signature", rfl⟩,
    (unverified_token_rejected demoClient.OIDC "forged.jwt" ⟨"bad signature", rfl⟩).1
      ⟨[("abc123", "abc123")], [], []⟩,
    (unverified_token_rejected demoClient.OIDC "forged.jwt" ⟨"bad signature", rfl⟩).2
      demoHandlerForged ⟨[("state", "abc123"), ("code", "validcode")], []⟩
      ⟨[("abc123", "abc123")], [], []⟩ rfl
      (by
        intro tok r h1 h2
        have ht : tok = ⟨"at", "rt", [("id_token", "forged.jwt")]⟩ :=
          (Except.ok.inj h1).symm
        subst ht
        exact (Option.some.inj h2).symm)⟩

theorem callback_outcomes {σ τ : Type} (a : AuthHandler σ τ) (c : Context) (w : World σ τ) :
    (∃ evs, (a.Callback c w).log = w.log ++ evs ∧ ∀ e ∈ evs, e.isRedirect = false) ∨
    (∃ tok raw idt cl evs,
      a.authClient.Oauth.Exchange (c.Query "code") exchangeOpts = .ok tok ∧
      tok.Extra "id_token" = some raw ∧
      a.authClient.OIDC.Verify raw = .ok idt ∧
      idt.Claims = .ok cl ∧
      (a.sessionStore.SaveSession w.sess cl.Sub
        ⟨tok.AccessToken, tok.RefreshToken, ⟨cl.Nric, cl.Name⟩⟩).1 = none ∧
      (a.Callback c w).sess =
        (a.sessionStore.SaveSession w.sess cl.Sub
          ⟨tok.AccessToken, tok.RefreshToken, ⟨cl.Nric, cl.Name⟩⟩).2 ∧
      (a.Callback c w).log = w.log ++ evs ∧
      evs.filter Event.isSaveSession =
        [Event.saveSession cl.Sub
          ⟨tok.AccessToken, tok.RefreshToken, ⟨cl.Nric, cl.Name⟩⟩]) := by
  cases hn : newCallbackData c with
  | error err =>
    left
    simp only [AuthHandler.Callback, hn, World.emit]
    exact ⟨_, rfl, by simp [Event.isRedirect]⟩
  | ok cd =>
    obtain ⟨hst, hcode, -, -⟩ := newCallbackData_ok c cd hn
    obtain ⟨hsess, evsv, hlog, hev⟩ := verify_spec cd a.authStore w
    have hred : ∀ e ∈ evsv, e.isRedirect = false := by
      intro e hmem
      rcases hev e hmem with h | h <;> subst h <;> rfl
    have hsave : evsv.filter Event.isSaveSession = [] := by
      rw [List.filter_eq_nil_iff]
      intro e hmem
      rcases hev e hmem with h | h <;> subst h <;> simp [Event.isSaveSession]
    simp only [AuthHandler.Callback, hn]
    generalize cd.verify a.authStore w = v at hlog hsess
    obtain ⟨verr, wv⟩ := v
    simp only at hlog hsess
    rw [← hcode, exchangeOpts]
    cases verr <;> simp only [] <;>
    (cases hx : a.authClient.Oauth.Exchange cd.authzCode
        [("grant_type", "authorization_code")] with
      | error err =>
        left
        simp only [World.emit, hlog, List.append_assoc]
        exact ⟨_, rfl, by simpa [or_imp, forall_and, Event.isRedirect] using hred⟩
      | ok tok =>
        simp only [newOIDCToken]
        cases hex : tok.Extra "id_token" with
        | none =>
          left
          simp only [World.emit, hlog, List.append_assoc]
          exact ⟨_, rfl, by simpa [or_imp, forall_and, Event.isRedirect] using hred⟩
        | some raw =>
          simp only [oidcToken.getClaims]
          cases hvf : a.authClient.OIDC.Verify raw with
          | error e =>
            left
            simp only [World.emit, hlog, List.append_assoc]
            exact ⟨_, rfl, by simpa [or_imp, forall_and, Event.isRedirect] using hred⟩
          | ok idt =>
            simp only []
            cases hcl : idt.Claims with
            | error e =>
              left
              simp only [World.emit, hlog, List.append_assoc]
              exact ⟨_, rfl, by simpa [or_imp, forall_and, Event.isRedirect] using hred⟩
            | ok cl =>
              simp only []
              split
              · left
                simp only [World.emit, hlog, List.append_assoc]
                exact ⟨_, rfl, by simpa [or_imp, forall_and, Event.isRedirect] using hred⟩
              · rename_i hnone
                have hnone2 : (a.sessionStore.SaveSession w.sess cl.Sub
                    ⟨tok.AccessToken, tok.RefreshToken, ⟨cl.Nric, cl.Name⟩⟩).1 = none := by
                  rw [← hsess]
                  exact hnone
                right
                simp only [World.emit, hlog, hsess, List.append_assoc]
                exact ⟨tok, raw, idt, cl, _, rfl, hex, hvf, hcl, hnone2, rfl, rfl,
                  by simp [List.filter_append, hsave, Event.isSaveSession]⟩)


/-- C8: in every callback run that reaches the redirect to `/success-login`,
the exchange, the `id_token` extraction, the verification and the claims
decoding all succeeded, and among the calls of the run there is exactly one
`SaveSession`: its key is the claims' `sub`, its record holds the exchanged
token's access and refresh tokens and the claims' `name` and `nric` (the
record is a function of the token and the claims only).  That call returned
nil, and the Session Store the run leaves behind is the one this single
`SaveSession`, applied to the store the run started with, produced. -/
theorem callback_success_saves_one_session {σ τ : Type} (a : AuthHandler σ τ)
    (c : Context) (w : World σ τ) (evs : List Event)
    (hlog : (a.Callback c w).log = w.log ++ evs)
    (hred : Event.redirect StatusTemporaryRedirect "/success-login" ∈ evs) :
    ∃ tok raw idt cl,
      a.authClient.Oauth.Exchange (c.Query "code") exchangeOpts = .ok tok ∧
      tok.Extra "id_token" = some raw ∧
      a.authClient.OIDC.Verify raw = .ok idt ∧
      idt.Claims = .ok cl ∧
      evs.filter Event.isSaveSession =
        [Event.saveSession cl.Sub
          { AccessToken := tok.AccessToken
            RefreshToken := tok.RefreshToken
            UserInfoData := { Nric := cl.Nric, FullName := cl.Name } }] ∧
      (a.sessionStore.SaveSession w.sess cl.Sub
          { AccessToken := tok.AccessToken
            RefreshToken := tok.RefreshToken
            UserInfoData := { Nric := cl.Nric, FullName := cl.Name } }).1 = none ∧
      (a.Callback c w).sess =
        (a.sessionStore.SaveSession w.sess cl.Sub
          { AccessToken := tok.AccessToken
            RefreshToken := tok.RefreshToken
            UserInfoData := { Nric := cl.Nric, FullName := cl.Name } }).2 := by
  rcases callback_outcomes a c w with ⟨evs1, h1, hno⟩ | ⟨tok, raw, idt, cl, evs1, hx, hex, hvf, hcl, hsn, hss, h1, hf⟩
  · have heq : evs = evs1 := List.append_cancel_left (hlog.symm.trans h1)
    subst heq
    have := hno _ hred
    simp [Event.isRedirect] at this
  · have heq : evs = evs1 := List.append_cancel_left (hlog.symm.trans h1)
    subst heq
    exact ⟨tok, raw, idt, cl, hx, hex, hvf, hcl, hf, hsn, hss⟩

theorem callback_success_saves_one_session_witness :
    (demoHandler.Callback ⟨[("state", "abc123"), ("code", "validcode")], []⟩
        ⟨[("abc123", "abc123")], [], []⟩).log = [] ++ demoSuccessEvents ∧
    Event.redirect StatusTemporaryRedirect "/success-login" ∈ demoSuccessEvents ∧
    (demoHandler.Callback ⟨[("state", "abc123"), ("code", "validcode")], []⟩
        ⟨[("abc123", "abc123")], [], []⟩).sess =
      [("u1", ⟨"at", "rt", ⟨"S1234567A", "Jane"⟩⟩)] ∧
    ∃ tok raw idt cl,
      demoHandler.authClient.Oauth.Exchange
        (Context.Query ⟨[("state", "abc123"), ("code", "validcode")], []⟩ "code")
        exchangeOpts = .ok tok ∧
      tok.Extra "id_token" = some raw ∧
      demoHandler.authClient.OIDC.Verify raw = .ok idt ∧
      idt.Claims = .ok cl ∧
      demoSuccessEvents.filter Event.isSaveSession =
        [Event.saveSession cl.Sub
          { AccessToken := tok.AccessToken
            RefreshToken := tok.RefreshToken
            UserInfoData := { Nric := cl.Nric, FullName := cl.Name } }] ∧
      (demoHandler.sessionStore.SaveSession [] cl.Sub
          { AccessToken := tok.AccessToken
            RefreshToken := tok.RefreshToken
            UserInfoData := { Nric := cl.Nric, FullName := cl.Name } }).1 = none ∧
      (demoHandler.Callback ⟨[("state", "abc123"), ("code", "validcode")], []⟩
          ⟨[("abc123", "abc123")], [], []⟩).sess =
        (demoHandler.sessionStore.SaveSession [] cl.Sub
          { AccessToken := tok.AccessToken
            RefreshToken := tok.RefreshToken
            UserInfoData := { Nric := cl.Nric, FullName := cl.Name } }).2 :=
  ⟨by decide, by decide, by decide,
    callback_success_saves_one_session demoHandler
      ⟨[("state", "abc123"), ("code", "validcode")], []⟩
      ⟨[("abc123", "abc123")], [], []⟩ demoSuccessEvents (by decide) (by decide)⟩

/-! ## State verification -/

theorem memAuthStore_get_absent (s : List (String × String)) (k : String)
    (h : hasKey s k = false) : ∃ e, (memAuthStore.GetState s k).1 = .error e := by
  have hl : s.lookup k = none := by
    induction s with
    | nil => rfl
    | cons x xs ih =>
      obtain ⟨a, b⟩ := x
      simp only [hasKey, List.any_cons, Bool.or_eq_false_iff, decide_eq_false_iff_not] at h
      have hne : (k == a) = false := by
        simp only [beq_eq_false_iff_ne, ne_eq]
        exact fun hk => h.1 hk.symm
      simp only [List.lookup, hne]
      exact ih (by simpa [hasKey] using h.2)
  exact ⟨"state not found", by simp [memAuthStore, hl]⟩

theorem memAuthStore_delete_removes (s : List (String × String)) (k : String) :
    hasKey (memAuthStore.DeleteState s k).2 k = false := by
  simp [memAuthStore, hasKey]

/-- C3 (as stated, refuted): with a State Store holding the record `a ↦ b`,
verifying the id `a` returns the mismatch error "invalid stateID", makes no
`DeleteState` call, and the record for `a` is still in the store. -/
theorem verify_mismatch_keeps_record :
    (callbackData.verify ⟨"a", "code"⟩ memAuthStore
      (⟨[("a", "b")], [], []⟩ : World _ (List (String × SessionData)))).1
        = some "invalid stateID" ∧
    (callbackData.verify ⟨"a", "code"⟩ memAuthStore
      (⟨[("a", "b")], [], []⟩ : World _ (List (String × SessionData)))).2.log
        = [Event.getState "a"] ∧
    hasKey (callbackData.verify ⟨"a", "code"⟩ memAuthStore
      (⟨[("a", "b")], [], []⟩ : World _ (List (String × SessionData)))).2.auth "a"
        = true := by
  decide

theorem verify_outcomes {σ τ : Type} (st : AuthStore σ)
    (present : σ → String → Bool)
    (hdel : ∀ s k, (st.DeleteState s k).1 = none → present (st.DeleteState s k).2 k = false)
    (cd : callbackData) (w : World σ τ) :
    ((cd.verify st w).1 = none →
      present (cd.verify st w).2.auth cd.stateID = false ∧
      (cd.verify st w).2.log =
        w.log ++ [Event.getState cd.stateID, Event.deleteState cd.stateID]) ∧
    (∀ e, (st.GetState w.auth cd.stateID).1 = .error e →
      cd.verify st w =
        (some e, ⟨(st.GetState w.auth cd.stateID).2, w.sess,
          w.log ++ [Event.getState cd.stateID]⟩)) ∧
    (∀ v, (st.GetState w.auth cd.stateID).1 = .ok v → v ≠ cd.stateID →
      cd.verify st w =
        (some "invalid stateID", ⟨(st.GetState w.auth cd.stateID).2, w.sess,
          w.log ++ [Event.getState cd.stateID]⟩)) := by
  refine ⟨?_, ?_, ?_⟩
  · intro h
    unfold callbackData.verify at h ⊢
    simp only [World.emit] at h ⊢
    cases hg : (st.GetState w.auth cd.stateID).1 with
    | error err => simp [hg] at h
    | ok v =>
      simp only [hg] at h ⊢
      by_cases hne : v ≠ cd.stateID
      · simp [hne] at h
      · have hv : v = cd.stateID := not_not.mp hne
        subst hv
        rw [if_neg hne] at h ⊢
        cases hd : (st.DeleteState (st.GetState w.auth cd.stateID).2 cd.stateID).1 with
        | some err => simp [hd] at h
        | none =>
          simp only [hd]
          exact ⟨hdel _ _ hd, by simp⟩
  · intro e he
    simp [callbackData.verify, World.emit, he]
  · intro v hv hne
    simp [callbackData.verify, World.emit, hv, hne]

/-- C3 (amended): when `verify` returns nil it has called `GetState` and then
`DeleteState` on the presented id, and in a store whose successful
`DeleteState` removes the key the record of that id is gone; when `GetState`
returns an error, or a value different from the id (error "invalid stateID"),
`verify` fails without calling `DeleteState` and leaves the store as
`GetState` left it. -/
theorem verify_deletes_only_on_success {σ τ : Type} (st : AuthStore σ)
    (present : σ → String → Bool)
    (hdel : ∀ s k, (st.DeleteState s k).1 = none → present (st.DeleteState s k).2 k = false)
    (cd : callbackData) (w : World σ τ) :
    ((cd.verify st w).1 = none →
      present (cd.verify st w).2.auth cd.stateID = false ∧
      (cd.verify st w).2.log =
        w.log ++ [Event.getState cd.stateID, Event.deleteState cd.stateID]) ∧
    (∀ e, (st.GetState w.auth cd.stateID).1 = .error e →
      cd.verify st w =
        (some e, ⟨(st.GetState w.auth cd.stateID).2, w.sess,
          w.log ++ [Event.getState cd.stateID]⟩)) ∧
    (∀ v, (st.GetState w.auth cd.stateID).1 = .ok v → v ≠ cd.stateID →
      cd.verify st w =
        (some "invalid stateID", ⟨(st.GetState w.auth cd.stateID).2, w.sess,
          w.log ++ [Event.getState cd.stateID]⟩)) :=
  verify_outcomes st present hdel cd w

theorem verify_deletes_only_on_success_witness :
    (∀ s k, (memAuthStore.DeleteState s k).1 = none →
      hasKey (memAuthStore.DeleteState s k).2 k = false) ∧
    ((callbackData.verify ⟨"abc123", "validcode"⟩ memAuthStore
        (⟨[("abc123", "abc123")], [], []⟩ : World _ (List (String × SessionData)))).1 = none ∧
      hasKey (callbackData.verify ⟨"abc123", "validcode"⟩ memAuthStore
        (⟨[("abc123", "abc123")], [], []⟩ : World _ (List (String × SessionData)))).2.auth
          "abc123" = false ∧
      (callbackData.verify ⟨"abc123", "validcode"⟩ memAuthStore
        (⟨[("abc123", "abc123")], [], []⟩ : World _ (List (String × SessionData)))).2.log =
          [] ++ [Event.getState "abc123", Event.deleteState "abc123"]) :=
  ⟨fun s k _ => memAuthStore_delete_removes s k,
    by decide,
    (verify_deletes_only_on_success memAuthStore hasKey
      (fun s k _ => memAuthStore_delete_removes s k) ⟨"abc123", "validcode"⟩
      (⟨[("abc123", "abc123")], [], []⟩ : World _ (List (String × SessionData)))).1
      (by decide)⟩

/-- C4: in a State Store where `GetState` on an absent key returns an error
and a successful `DeleteState` removes the key, if `verify` returns nil then
verifying the same state id again, in the store the first run left, returns
an error (the one `GetState` reports for the missing record) and calls no
`DeleteState`. -/
theorem verify_twice_second_fails {σ τ : Type} (st : AuthStore σ)
    (present : σ → String → Bool)
    (habs : ∀ s k, present s k = false → ∃ e, (st.GetState s k).1 = .error e)
    (hdel : ∀ s k, (st.DeleteState s k).1 = none → present (st.DeleteState s k).2 k = false)
    (cd : callbackData) (w : World σ τ)
    (h1 : (cd.verify st w).1 = none) :
    ∃ e, (st.GetState (cd.verify st w).2.auth cd.stateID).1 = .error e ∧
      (cd.verify st (cd.verify st w).2).1 = some e ∧
      (cd.verify st (cd.verify st w).2).2.log =
        (cd.verify st w).2.log ++ [Event.getState cd.stateID] := by
  have hgone := ((verify_outcomes st present hdel cd w).1 h1).1
  obtain ⟨e, he⟩ := habs _ _ hgone
  have h2 := (verify_outcomes st present hdel cd (cd.verify st w).2).2.1 e he
  exact ⟨e, he, by rw [h2], by rw [h2]⟩

theorem verify_twice_second_fails_witness :
    (∀ s k, hasKey s k = false → ∃ e, (memAuthStore.GetState s k).1 = .error e) ∧
    (∀ s k, (memAuthStore.DeleteState s k).1 = none →
      hasKey (memAuthStore.DeleteState s k).2 k = false) ∧
    (callbackData.verify ⟨"abc123", "validcode"⟩ memAuthStore
        (⟨[("abc123", "abc123")], [], []⟩ : World _ (List (String × SessionData)))).1 = none ∧
    ∃ e, (memAuthStore.GetState (callbackData.verify ⟨"abc123", "validcode"⟩ memAuthStore
          (⟨[("abc123", "abc123")], [], []⟩ :
            World _ (List (String × SessionData)))).2.auth "abc123").1 = .error e ∧
      (callbackData.verify ⟨"abc123", "validcode"⟩ memAuthStore
        (callbackData.verify ⟨"abc123", "validcode"⟩ memAuthStore
          (⟨[("abc123", "abc123")], [], []⟩ :
            World _ (List (String × SessionData)))).2).1 = some e ∧
      (callbackData.verify ⟨"abc123", "validcode"⟩ memAuthStore
        (callbackData.verify ⟨"abc123", "validcode"⟩ memAuthStore
          (⟨[("abc123", "abc123")], [], []⟩ :
            World _ (List (String × SessionData)))).2).2.log =
        (callbackData.verify ⟨"abc123", "validcode"⟩ memAuthStore
          (⟨[("abc123", "abc123")], [], []⟩ :
            World _ (List (String × SessionData)))).2.log ++ [Event.getState "abc123"] :=
  ⟨memAuthStore_get_absent,
    fun s k _ => memAuthStore_delete_removes s k,
    by decide,
    verify_twice_second_fails memAuthStore hasKey memAuthStore_get_absent
      (fun s k _ => memAuthStore_delete_removes s k) ⟨"abc123", "validcode"⟩
      (⟨[("abc123", "abc123")], [], []⟩ : World _ (List (String × SessionData)))
      (by decide)⟩

/-! ## The redirect to the provider -/

/-- C7: when `SetState` returns an error the handler writes the error
response and then still calls `c.Redirect` with the provider's authorization
URL; the same happens when random generation fails. -/
theorem redirect_issued_after_failure :
    (demoHandlerFailingStore.RedirectToKeycloak ("tok", none) ⟨[], [], []⟩).log =
      [ Event.setState "tok", Event.json 500 "store unavailable",
        Event.authCodeURL "tok",
        Event.redirect 302 "https://kc/realms/r/protocol/openid-connect/auth?state=tok" ] ∧
    (demoHandler.RedirectToKeycloak ("", some "entropy source failed") ⟨[], [], []⟩).log =
      [ Event.json 500 "entropy source failed", Event.setState "",
        Event.authCodeURL "",
        Event.redirect 302 "https://kc/realms/r/protocol/openid-connect/auth?state=" ] := by
  decide


/-! ## Logout -/

set_option maxRecDepth 100000

theorem logout_params_encode (cid t : String) :
    ((((⟨[]⟩ : Values).Set "client_id" cid).Set "id_token_hint" t).Set
        "post_logout_redirect_uri" "http://localhost:8081").Encode =
      "client_id=" ++ QueryEscape cid ++ "&" ++ ("id_token_hint=" ++ QueryEscape t) ++ "&" ++
        ("post_logout_redirect_uri=" ++ QueryEscape "http://localhost:8081") := by
  have k1 : QueryEscape "client_id" = "client_id" := by decide
  have k2 : QueryEscape "id_token_hint" = "id_token_hint" := by decide
  have k3 : QueryEscape "post_logout_redirect_uri" = "post_logout_redirect_uri" := by decide
  have l1 : stringLess "id_token_hint" "post_logout_redirect_uri" = true := by decide
  have l2 : stringLess "client_id" "id_token_hint" = true := by decide
  simp [Values.Set, Values.Encode, encodePairs, sortByKey, insertByKey, k1, k2, k3, l1, l2,
    String.intercalate, String.intercalate.go]


theorem escape_unreserved (l : List Char) (h : ∀ ch ∈ l, unreserved ch = true) :
    l.flatMap escapeChar = l := by
  induction l with
  | nil => rfl
  | cons x xs ih =>
    have hx : unreserved x = true := h x (List.mem_cons_self _ _)
    have hxs : ∀ ch ∈ xs, unreserved ch = true :=
      fun ch hch => h ch (List.mem_cons_of_mem _ hch)
    simp [List.flatMap_cons, escapeChar, hx, ih hxs]

theorem logoutURL_of_contains (authURL : String)
    (h : "/protocol".data <:+: authURL.data) :
    ∃ p r, authURL.data = p ++ "/protocol".data ++ r ∧
      (∀ p' r', authURL.data = p' ++ "/protocol".data ++ r' → p.length ≤ p'.length) ∧
      stringsIndex authURL "/protocol" = (p.length : Int) ∧
      logoutURL authURL = some (String.mk p ++ "/protocol/openid-connect/logout") := by
  cases hi : indexOf? "/protocol".data authURL.data with
  | none =>
    obtain ⟨p, r, hs⟩ := (infix_iff_split _ _).mp h
    exact absurd hs (indexOf?_none _ _ hi p r)
  | some i =>
    obtain ⟨p, r, hs, hlen, hmin⟩ := indexOf?_some _ _ i hi
    have hidx : stringsIndex authURL "/protocol" = (p.length : Int) := by
      simp [stringsIndex, hi, hlen]
    refine ⟨p, r, hs, fun p' r' h' => hlen ▸ hmin p' r' h', hidx, ?_⟩
    have hle : (p.length : Int) ≤ (authURL.data.length : Int) := by
      rw [hs]
      simp only [List.length_append]
      omega
    have htake : authURL.data.take p.length = p := by
      rw [hs, List.append_assoc]
      exact List.take_left' rfl
    have hle2 : p.length ≤ authURL.length := by
      have : authURL.length = authURL.data.length := rfl
      omega
    simp [logoutURL, sliceTo, hidx, hle2, htake]

/-- C9 (as stated, refuted): with the `idToken` cookie `a b` the handler
redirects to a URL in which the token is query-escaped (`id_token_hint=a+b`):
the URL contains neither `id_token_hint=a b` nor the literal
`http://localhost:8081`. -/
theorem logout_escapes_token :
    demoHandler.LogoutHandler ⟨[], [("idToken", "a b")]⟩ ⟨[], [], []⟩ =
      .ok ⟨[], [], [Event.redirect 302
        "https://kc/realms/r/protocol/openid-connect/logout?client_id=cid&id_token_hint=a+b&post_logout_redirect_uri=http%3A%2F%2Flocalhost%3A8081"]⟩ ∧
    ¬ "id_token_hint=a b".data <:+:
      "https://kc/realms/r/protocol/openid-connect/logout?client_id=cid&id_token_hint=a+b&post_logout_redirect_uri=http%3A%2F%2Flocalhost%3A8081".data ∧
    ¬ "http://localhost:8081".data <:+:
      "https://kc/realms/r/protocol/openid-connect/logout?client_id=cid&id_token_hint=a+b&post_logout_redirect_uri=http%3A%2F%2Flocalhost%3A8081".data := by
  refine ⟨by rfl, ?_, ?_⟩
  · intro h
    obtain ⟨p, r, hs⟩ := (infix_iff_split _ _).mp h
    exact indexOf?_none _ _ (by decide) p r hs
  · intro h
    obtain ⟨p, r, hs⟩ := (infix_iff_split _ _).mp h
    exact indexOf?_none _ _ (by decide) p r hs

/-- C9 (amended): with a non-empty `idToken` cookie `t` and a provider
`AuthURL` containing `/protocol`, `LogoutHandler` redirects (302) to a URL that
contains `id_token_hint=` immediately followed by the query-escaped `t` (which
is `t` itself when `t` has only letters, digits, `-`, `_`, `.`, `~`) and
contains `post_logout_redirect_uri=` followed by the query-escaped hard-coded
URI `http://localhost:8081`; with the cookie absent or empty it redirects to
`/` and aborts, whatever the provider configuration. -/
theorem logout_redirect_target {σ τ : Type} (a : AuthHandler σ τ) (c : Context)
    (w : World σ τ) :
    (∀ t, c.Cookie "idToken" = .ok t → t ≠ "" →
      "/protocol".data <:+: a.authClient.AuthURL.data →
      ∃ url, a.LogoutHandler c w = .ok (w.emit (.redirect StatusFound url)) ∧
        ("id_token_hint=" ++ QueryEscape t).data <:+: url.data ∧
        ("post_logout_redirect_uri=" ++ QueryEscape "http://localhost:8081").data
          <:+: url.data ∧
        QueryEscape "http://localhost:8081" = "http%3A%2F%2Flocalhost%3A8081" ∧
        ((∀ ch ∈ t.data, unreserved ch = true) → QueryEscape t = t)) ∧
    ((c.Cookie "idToken" = .ok "" ∨ ∃ e, c.Cookie "idToken" = .error e) →
      a.LogoutHandler c w = .ok ((w.emit (.redirect StatusFound "/")).emit .abort)) := by
  refine ⟨?_, ?_⟩
  · intro t hck hne hc
    obtain ⟨p, r, -, -, -, hl⟩ := logoutURL_of_contains a.authClient.AuthURL hc
    refine ⟨_, by
      simp only [AuthHandler.LogoutHandler, hck, hne, hl, if_false, logout_params_encode]
      rfl, ?_, ?_, by decide, ?_⟩
    · refine ⟨(String.mk p ++ "/protocol/openid-connect/logout" ++ "?" ++
          ("client_id=" ++ QueryEscape a.authClient.Oauth.ClientID ++ "&")).data,
        ("&" ++ ("post_logout_redirect_uri=" ++ QueryEscape "http://localhost:8081")).data, ?_⟩
      simp [String.data_append, List.append_assoc]
    · refine ⟨(String.mk p ++ "/protocol/openid-connect/logout" ++ "?" ++
          ("client_id=" ++ QueryEscape a.authClient.Oauth.ClientID ++ "&" ++
            ("id_token_hint=" ++ QueryEscape t) ++ "&")).data, [], ?_⟩
      simp [String.data_append, List.append_assoc]
    · intro hun
      have := escape_unreserved t.data hun
      simp [QueryEscape, this]
  · rintro (hck | ⟨e, hck⟩)
    · simp [AuthHandler.LogoutHandler, hck]
    · simp [AuthHandler.LogoutHandler, hck]

theorem logout_redirect_target_witness :
    (Context.Cookie ⟨[], [("idToken", "signed.jwt")]⟩ "idToken" = .ok "signed.jwt") ∧
    ("signed.jwt" ≠ "") ∧
    ("/protocol".data <:+: demoHandler.authClient.AuthURL.data) ∧
    (∃ url, demoHandler.LogoutHandler ⟨[], [("idToken", "signed.jwt")]⟩ ⟨[], [], []⟩ =
        .ok ((⟨[], [], []⟩ : World _ _).emit (.redirect StatusFound url)) ∧
      ("id_token_hint=" ++ QueryEscape "signed.jwt").data <:+: url.data ∧
      ("post_logout_redirect_uri=" ++ QueryEscape "http://localhost:8081").data
        <:+: url.data ∧
      QueryEscape "http://localhost:8081" = "http%3A%2F%2Flocalhost%3A8081" ∧
      ((∀ ch ∈ "signed.jwt".data, unreserved ch = true) →
        QueryEscape "signed.jwt" = "signed.jwt")) ∧
    ((Context.Cookie ⟨[], []⟩ "idToken" = .ok "" ∨
        ∃ e, Context.Cookie ⟨[], []⟩ "idToken" = .error e) ∧
      demoHandler.LogoutHandler ⟨[], []⟩ ⟨[], [], []⟩ =
        .ok (((⟨[], [], []⟩ : World _ _).emit (.redirect StatusFound "/")).emit .abort)) :=
  have hin : "/protocol".data <:+: demoHandler.authClient.AuthURL.data :=
    ⟨"https://kc/realms/r".data, "/openid-connect/auth".data, by decide⟩
  have hno : Context.Cookie ⟨[], []⟩ "idToken" = .ok "" ∨
      ∃ e, Context.Cookie ⟨[], []⟩ "idToken" = .error e :=
    Or.inr ⟨"http: named cookie not present", rfl⟩
  ⟨rfl, by decide, hin,
    (logout_redirect_target demoHandler ⟨[], [("idToken", "signed.jwt")]⟩ ⟨[], [], []⟩).1
      "signed.jwt" rfl (by decide) hin,
    hno,
    (logout_redirect_target demoHandler ⟨[], []⟩ ⟨[], [], []⟩).2 hno⟩

end AuthFlow

